import Mathlib

/-!
# Oracle Counter — verification of the digit-buffer-and-overlay logic

Shallow embedding of `src/main.py` (Oracle Counter). Python strings are
modelled as `List Char`; the digit buffer `logged_numbers` (a Python list of
one-character strings `'0'..'9'`) is modelled as a `List Char`; JSON records
are association lists `List (String × JVal)` in insertion order, matching
Python's `dict` semantics (`in`-test, `d[k] = v` appending a new key at the
end, `json.dump`/`json.load` preserving order).

Effects are made explicit: file-system and parser outcomes are a
`FileState` (the file is missing, raises on open/parse, or parses to a
top-level JSON value — a record or not), and keystroke synthesis
(`pynput` `Controller.type`) is an emission list returned alongside the
new buffer state.
-/

namespace OracleCounter

/-- A flat JSON value, as stored in `config.json`
(`json` scalar values: the persisted fields are a hex-color string,
integers-or-null, and a boolean). -/
inductive JVal where
  | null : JVal
  | bool (b : Bool) : JVal
  | num (n : Int) : JVal
  | str (s : String) : JVal
deriving DecidableEq, Repr

/-- A parsed JSON record, in insertion order (Python `dict`). -/
abbrev Config := List (String × JVal)

/-- Constant `DEFAULT_CONFIG` from `main.py` lines 24-29. -/
def DEFAULT_CONFIG : Config :=
  [("overlay_color", .str "#ffff00"),
   ("overlay_x", .null),
   ("overlay_y", .null),
   ("overlay_locked", .bool false)]

/-- A top-level value returned by `json.load`, as far as the backfill
loop of `load_config` distinguishes them: a JSON object (Python `dict`:
the `in`-test is key membership, assignment appends a fresh key), a JSON
array (Python `list`: the `in`-test is element membership, and item
assignment with a string index raises `TypeError`; a nested container
element never compares equal to a string key, so flat `JVal` elements
capture the membership behavior), a JSON string (the `in`-test is the
substring test, item assignment raises `TypeError`), or any other value
(number, boolean, null: the very first `in`-test raises `TypeError`). -/
inductive PyVal where
  | dict (obj : Config) : PyVal
  | arr (elems : List JVal) : PyVal
  | pystr (s : String) : PyVal
  | other (v : JVal) : PyVal
deriving DecidableEq, Repr

/-- Outcome of trying to read and parse `config.json`: the file does not
exist (`os.path.exists` is false), opening or `json.load`ing it raises
(I/O error or parse error, caught by the blanket `except` of
`load_config`), or `json.load` returns a top-level value. -/
inductive FileState where
  | missing : FileState
  | unreadable : FileState
  | parsed (v : PyVal) : FileState

/-- One iteration of the backfill loop in `load_config`
(`if key not in config: config[key] = default_value`); assigning a fresh
key to a Python dict appends it at the end. -/
def ensure_key (cfg : Config) (kv : String × JVal) : Config :=
  if (cfg.lookup kv.1).isSome then cfg else cfg ++ [kv]

/-- Function `load_config` (`main.py` lines 31-43). On a missing file, or
when opening/parsing raises, return `DEFAULT_CONFIG.copy()`. When
`json.load` returns a dict, the loop backfills every missing
`DEFAULT_CONFIG` key (dict assignment never raises) and the dict is
returned. When it returns a list or a string, the `key not in config`
test at line 38 is element membership resp. the substring test: at the
first recognized key not contained, the assignment at line 39 raises
`TypeError`, the blanket `except` is reached and the defaults are
returned — but when every recognized key is contained, no assignment
runs and line 40 returns the raw non-record value unchanged. On any
other top-level value the first `in`-test itself raises, giving the
defaults. The function is total: no outcome raises to the caller. -/
def load_config : FileState → PyVal
  | .missing => .dict DEFAULT_CONFIG
  | .unreadable => .dict DEFAULT_CONFIG
  | .parsed (.dict obj) => .dict (DEFAULT_CONFIG.foldl ensure_key obj)
  | .parsed (.arr elems) =>
      if ∀ kv ∈ DEFAULT_CONFIG, JVal.str kv.1 ∈ elems
      then .arr elems else .dict DEFAULT_CONFIG
  | .parsed (.pystr s) =>
      if ∀ kv ∈ DEFAULT_CONFIG, kv.1.toList <:+: s.toList
      then .pystr s else .dict DEFAULT_CONFIG
  | .parsed (.other _) => .dict DEFAULT_CONFIG

/-- Function `save_config` (`main.py` lines 45-51): `json.dump(config, f)`
serializes the value verbatim (dicts, lists and strings alike). This
models the successful write (the `True` branch): the file afterwards
parses back to exactly the saved value. -/
def save_config (v : PyVal) : FileState :=
  .parsed v

/-- Constant `NUMPAD_MAPPING` from `main.py` lines 18-21: virtual key codes of the
numeric-keypad digit keys to digit characters. -/
def NUMPAD_MAPPING : List (Nat × Char) :=
  [(96, '0'), (97, '1'), (98, '2'), (99, '3'), (100, '4'),
   (101, '5'), (102, '6'), (103, '7'), (104, '8'), (105, '9')]

/-- Rendering `' '.join(self.logged_numbers)` (`main.py` line 652): the buffered
one-character strings joined by single spaces. -/
def render_spaced (st : List Char) : List Char :=
  List.intercalate [' '] (st.map fun c => [c])

/-- Rendering `''.join(self.logged_numbers)` (`main.py` line 659): the buffered
one-character strings concatenated with no separator. -/
def render_concatenated (st : List Char) : List Char :=
  List.intercalate [] (st.map fun c => [c])

/-- Method `MainWindow.clear_numbers` (`main.py` lines 663-665) as it acts on the
buffer: `self.logged_numbers.clear()` empties it (then re-renders). -/
def clear_numbers (_st : List Char) : List Char :=
  []

/-- Method `MainWindow.send_numbers` (`main.py` lines 657-661): if the buffer is
non-empty, emit its concatenation once via `self.controller.type` and then
clear; otherwise do nothing. Returns the new buffer and the list of
emissions performed. -/
def send_numbers (st : List Char) : List Char × List (List Char) :=
  if st.isEmpty then (st, [])
  else (clear_numbers st, [render_concatenated st])

/-- A `pynput` key event as observed by `on_key_press`: a `KeyCode` whose
`vk` attribute may be absent/`None` (malformed event), or one of the
special `Key` members (`Key.enter`, `Key.backspace`, any other `Key`
member, which carry no `vk` attribute). -/
inductive PyKey where
  | keyCode (vk : Option Nat) : PyKey
  | enter : PyKey
  | backspace : PyKey
  | otherSpecial : PyKey
deriving DecidableEq

/-- The guarded append inside `on_key_press` (`main.py` lines 636-638):
`if len(self.logged_numbers) < 7: self.logged_numbers.append(...)`. -/
def append_digit (st : List Char) (d : Char) : List Char :=
  if st.length < 7 then st ++ [d] else st

/-- Callback `on_key_press` (`main.py` lines 632-645): if the event has a `vk`
attribute mapped by `NUMPAD_MAPPING`, append the digit when the buffer
holds fewer than 7; any exception in that block is swallowed. Then
`Key.enter` triggers `send_numbers` and `Key.backspace` triggers
`clear_numbers`. Totality of this function models the listener surviving
every event. Returns the new buffer and the emissions performed. -/
def on_key_press (k : PyKey) (st : List Char) : List Char × List (List Char) :=
  let st1 :=
    match k with
    | .keyCode (some vk) =>
        match NUMPAD_MAPPING.lookup vk with
        | some d => append_digit st d
        | none => st
    | _ => st
  match k with
  | .enter => send_numbers st1
  | .backspace => (clear_numbers st1, [])
  | _ => (st1, [])

/-- The operations that reach the digit buffer: a key event handled by
`on_key_press`, or the Clear button (`clear_btn.clicked` →
`clear_numbers`, `main.py` line 441). -/
inductive UAction where
  | key (k : PyKey) : UAction
  | clearClick : UAction

/-- Effect of one user action on the buffer state. -/
def stepBuffer (st : List Char) : UAction → List Char
  | .key k => (on_key_press k st).1
  | .clearClick => clear_numbers st

/-- Buffer reached from the initial empty `logged_numbers = []`
(`main.py` line 198) by a sequence of user actions. -/
def runActions (acts : List UAction) : List Char :=
  acts.foldl stepBuffer []

/-! ## Python string helpers (on `List Char`) -/

/-- Python `str.split()` with no argument, before discarding empty groups:
cut at every whitespace character. -/
def pySplitRaw (s : List Char) : List (List Char) :=
  s.foldr
    (fun c acc =>
      if c.isWhitespace then [] :: acc
      else (c :: acc.headD []) :: acc.tail)
    [[]]

/-- Python `str.split()` with no argument: split on whitespace runs,
discarding empty groups. -/
def pySplit (s : List Char) : List (List Char) :=
  (pySplitRaw s).filter (fun g => !g.isEmpty)

/-- Python `str.strip()`: drop leading and trailing whitespace. -/
def pyStrip (s : List Char) : List Char :=
  ((s.dropWhile Char.isWhitespace).reverse.dropWhile Char.isWhitespace).reverse

/-! ## Overlay rendering logic -/

/-- The positioning-hint label text (`main.py` line 147). -/
def POSITION_HINT : List Char :=
  "Overlay Position\n(max 7 numbers)".toList

/-- Method `OverlayWindow.update_text` (`main.py` lines 134-150), up to the label
text it sets: cap the text to its first 7 whitespace-separated tokens; if
the capped text is non-blank show it, else show the positioning hint when
unlocked and the empty string when locked. -/
def update_text (locked : Bool) (text : List Char) : List Char :=
  let numbers := pySplit text
  let text := if numbers.length > 7
    then List.intercalate [' '] (numbers.take 7)
    else text
  if !(pyStrip text).isEmpty then text
  else if !locked then POSITION_HINT
  else []

/-- The style fields `update_overlay_style` writes into the label's
stylesheet (`main.py` lines 111-124). -/
structure QStyle where
  border : List Char
  bg : List Char
  color : List Char
  fontSize : List Char
deriving DecidableEq, Repr

/-- Method `OverlayWindow.update_overlay_style` (`main.py` lines 82-124):
`has_content` is true when the label text is non-blank and does not start
with `"Overlay"`; the border/background/text-color then follow the three
branches of the source, and the font size is 36px exactly when there is
actual number content. -/
def update_overlay_style (labelText : List Char) (locked : Bool)
    (overlayColor : List Char) : QStyle :=
  let has_content := !(pyStrip labelText).isEmpty
    && !(List.isPrefixOf "Overlay".toList labelText)
  let fontSize := if has_content then "36px".toList else "16px".toList
  if has_content then
    if locked then
      ⟨"none".toList, "transparent".toList, overlayColor, fontSize⟩
    else
      ⟨"2px dashed #ff4757".toList, "rgba(255, 71, 87, 0.15)".toList,
        overlayColor, fontSize⟩
  else if locked then
    ⟨"none".toList, "transparent".toList, "transparent".toList, fontSize⟩
  else
    ⟨"2px dashed #ff4757".toList, "rgba(255, 71, 87, 0.15)".toList,
      "#ff4757".toList, fontSize⟩

/-! ## Helper lemmas about the digit buffer -/

theorem append_digit_length {st : List Char} (d : Char) (h : st.length ≤ 7) :
    (append_digit st d).length ≤ 7 := by
  unfold append_digit
  split
  · rename_i hlt
    simp only [List.length_append, List.length_cons, List.length_nil]
    omega
  · exact h

theorem append_digit_of_full {st : List Char} (d : Char) (h : st.length = 7) :
    append_digit st d = st := by
  unfold append_digit
  rw [if_neg]
  omega

theorem send_numbers_fst_length (st : List Char) :
    (send_numbers st).1.length ≤ st.length := by
  unfold send_numbers clear_numbers
  split <;> simp

theorem on_key_press_keyCode (st : List Char) (vk : Nat) :
    on_key_press (.keyCode (some vk)) st =
      ((match NUMPAD_MAPPING.lookup vk with
        | some d => append_digit st d
        | none => st), []) :=
  rfl

theorem on_key_press_fst_length {st : List Char} (k : PyKey) (h : st.length ≤ 7) :
    ((on_key_press k st).1).length ≤ 7 := by
  cases k with
  | keyCode vk =>
    cases vk with
    | none => simpa [on_key_press] using h
    | some n =>
      rw [on_key_press_keyCode]
      cases NUMPAD_MAPPING.lookup n with
      | none => simpa using h
      | some d => simpa using append_digit_length d h
  | enter =>
    exact le_trans (send_numbers_fst_length st) h
  | backspace => simp [on_key_press, clear_numbers]
  | otherSpecial => simpa [on_key_press] using h

theorem stepBuffer_length {st : List Char} (a : UAction) (h : st.length ≤ 7) :
    (stepBuffer st a).length ≤ 7 := by
  cases a with
  | key k => exact on_key_press_fst_length k h
  | clearClick => simp [stepBuffer, clear_numbers]

theorem foldl_stepBuffer_length (acts : List UAction) :
    ∀ st : List Char, st.length ≤ 7 → (acts.foldl stepBuffer st).length ≤ 7 := by
  induction acts with
  | nil => intro st h; simpa using h
  | cons a acts ih =>
    intro st h
    simpa using ih (stepBuffer st a) (stepBuffer_length a h)

theorem foldl_append_digit_of_room (ds : List Char) :
    ∀ st : List Char, st.length + ds.length ≤ 7 →
      ds.foldl append_digit st = st ++ ds := by
  induction ds with
  | nil => intro st _; simp
  | cons d ds ih =>
    intro st h
    have hlt : st.length < 7 := by simp at h; omega
    have h1 : append_digit st d = st ++ [d] := by
      unfold append_digit; rw [if_pos hlt]
    have h2 : (st ++ [d]).length + ds.length ≤ 7 := by simp at h ⊢; omega
    calc (d :: ds).foldl append_digit st
        = ds.foldl append_digit (append_digit st d) := rfl
      _ = ds.foldl append_digit (st ++ [d]) := by rw [h1]
      _ = (st ++ [d]) ++ ds := ih (st ++ [d]) h2
      _ = st ++ d :: ds := by simp

theorem foldl_append_digit_of_full (more : List Char) {st : List Char}
    (h : st.length = 7) : more.foldl append_digit st = st := by
  induction more with
  | nil => rfl
  | cons d more ih =>
    calc (d :: more).foldl append_digit st
        = more.foldl append_digit (append_digit st d) := rfl
      _ = more.foldl append_digit st := by rw [append_digit_of_full d h]
      _ = st := ih

/-- The space-joined string the spec describes: the digits in call order,
adjacent digits separated by a single space. Stated independently of
`render_spaced` so the two can be compared. -/
def spacedJoin : List Char → List Char
  | [] => []
  | [d] => [d]
  | d :: e :: rest => d :: ' ' :: spacedJoin (e :: rest)

theorem render_spaced_eq_spacedJoin (st : List Char) :
    render_spaced st = spacedJoin st := by
  induction st with
  | nil => rfl
  | cons d rest ih =>
    cases rest with
    | nil => simp [render_spaced, List.intercalate, spacedJoin]
    | cons e rest2 =>
      simp only [render_spaced, List.intercalate, List.map_cons,
        List.intersperse_cons_cons, List.flatten] at ih ⊢
      simp [ih, spacedJoin]

/-! ## Claim theorems: the digit buffer -/

/-- C1: `flush()` (`send_numbers`) on a non-empty buffer performs exactly
one emission, of the concatenated buffered digits, and leaves the buffer
empty; on an empty buffer it performs no emission and the buffer stays
empty. The emission equals `render_concatenated` of the buffer as it was
when the flush began, so digits appended after that point contribute
nothing to the emission. -/
theorem send_numbers_emits_once_then_clears (st : List Char) :
    send_numbers st = ([], if st.isEmpty then [] else [render_concatenated st]) := by
  cases st <;> simp [send_numbers, clear_numbers]

/-- C4: `clear()` (`clear_numbers`) yields the empty buffer from every
prior state, and composing it with itself gives the same state as one
call. -/
theorem clear_numbers_empty_and_idempotent (st : List Char) :
    clear_numbers st = [] ∧
      clear_numbers (clear_numbers st) = clear_numbers st :=
  ⟨rfl, rfl⟩

/-- C2: every buffer reachable from the empty initial state by key events
and Clear clicks has length at most 7 (length is a `Nat`, so it is also
at least 0), and a mapped numpad key press while the buffer already holds
7 digits leaves the buffer unchanged and emits nothing; totality of
`on_key_press` models the absence of a raised error. -/
theorem buffer_length_invariant :
    (∀ acts : List UAction, (runActions acts).length ≤ 7) ∧
      (∀ (st : List Char) (vk : Nat) (d : Char), st.length = 7 →
        NUMPAD_MAPPING.lookup vk = some d →
        on_key_press (.keyCode (some vk)) st = (st, [])) := by
  constructor
  · intro acts
    exact foldl_stepBuffer_length acts [] (by simp)
  · intro st vk d hlen hvk
    simp [on_key_press, hvk, append_digit_of_full d hlen]

/-- Witness for C2 at a concrete action sequence and a concrete full
buffer. -/
theorem buffer_length_invariant_witness :
    (runActions [.key (.keyCode (some 97)), .key (.keyCode (some 98))]).length ≤ 7 ∧
      on_key_press (.keyCode (some 97)) ['1', '2', '3', '4', '5', '6', '7']
        = (['1', '2', '3', '4', '5', '6', '7'], []) :=
  ⟨buffer_length_invariant.1 _,
    buffer_length_invariant.2 ['1', '2', '3', '4', '5', '6', '7'] 97 '1'
      (by decide) (by decide)⟩

/-- C3: appending at most 7 digits to the empty buffer retains exactly
those digits in call order, and `render_spaced` then returns them joined
by single spaces; once the buffer holds 7 digits, any further run of
appends leaves both the buffer and the rendered string unchanged. -/
theorem render_spaced_of_appends :
    (∀ ds : List Char, ds.length ≤ 7 →
      ds.foldl append_digit [] = ds ∧
        render_spaced (ds.foldl append_digit []) = spacedJoin ds) ∧
      (∀ (st more : List Char), st.length = 7 →
        more.foldl append_digit st = st ∧
          render_spaced (more.foldl append_digit st) = render_spaced st) := by
  constructor
  · intro ds h
    have hb : ds.foldl append_digit [] = ds := by
      simpa using foldl_append_digit_of_room ds [] (by simpa using h)
    exact ⟨hb, by rw [hb, render_spaced_eq_spacedJoin]⟩
  · intro st more h
    have hb := foldl_append_digit_of_full more h
    exact ⟨hb, by rw [hb]⟩

/-- Witness for C3 at a concrete short digit sequence and a concrete full
buffer. -/
theorem render_spaced_of_appends_witness :
    (['1', '2', '3'].foldl append_digit [] = ['1', '2', '3'] ∧
      render_spaced (['1', '2', '3'].foldl append_digit [])
        = spacedJoin ['1', '2', '3']) ∧
      (['9', '8'].foldl append_digit ['1', '2', '3', '4', '5', '6', '7']
          = ['1', '2', '3', '4', '5', '6', '7'] ∧
        render_spaced (['9', '8'].foldl append_digit ['1', '2', '3', '4', '5', '6', '7'])
          = render_spaced ['1', '2', '3', '4', '5', '6', '7']) :=
  ⟨render_spaced_of_appends.1 ['1', '2', '3'] (by decide),
    render_spaced_of_appends.2 ['1', '2', '3', '4', '5', '6', '7'] ['9', '8']
      (by decide)⟩

/-- C9: a key event changes the buffer only when it carries a virtual key
code mapped by `NUMPAD_MAPPING`: an unmapped `vk` (in particular every
top-row digit code 48–57), a `KeyCode` without a `vk` attribute
(malformed event) and any unrelated special key leave the buffer
unchanged and emit nothing, while a mapped `vk` appends its digit when
the buffer holds fewer than 7; totality of `on_key_press` models the
listener surviving every event. -/
theorem key_classification :
    (∀ (st : List Char) (vk : Nat), NUMPAD_MAPPING.lookup vk = none →
      on_key_press (.keyCode (some vk)) st = (st, [])) ∧
      (∀ st : List Char, on_key_press (.keyCode none) st = (st, [])) ∧
      (∀ st : List Char, on_key_press .otherSpecial st = (st, [])) ∧
      (∀ vk : Nat, 48 ≤ vk → vk ≤ 57 → NUMPAD_MAPPING.lookup vk = none) ∧
      (∀ (st : List Char) (vk : Nat) (d : Char),
        NUMPAD_MAPPING.lookup vk = some d → st.length < 7 →
        on_key_press (.keyCode (some vk)) st = (st ++ [d], [])) := by
  refine ⟨?_, ?_, ?_, ?_, ?_⟩
  · intro st vk h
    simp [on_key_press, h]
  · intro st
    simp [on_key_press]
  · intro st
    simp [on_key_press]
  · intro vk h1 h2
    interval_cases vk <;> decide
  · intro st vk d hvk hlen
    simp [on_key_press, hvk, append_digit, if_pos hlen]

/-- Witness for C9: a top-row digit key (vk 49), a `vk`-less event and an
unrelated special key are ignored; numpad vk 97 appends `'1'`. -/
theorem key_classification_witness :
    on_key_press (.keyCode (some 49)) ['5'] = (['5'], []) ∧
      on_key_press (.keyCode none) ['5'] = (['5'], []) ∧
      on_key_press .otherSpecial ['5'] = (['5'], []) ∧
      NUMPAD_MAPPING.lookup 49 = none ∧
      on_key_press (.keyCode (some 97)) ['5'] = (['5', '1'], []) :=
  ⟨key_classification.1 ['5'] 49 (by decide),
    key_classification.2.1 ['5'],
    key_classification.2.2.1 ['5'],
    key_classification.2.2.2.1 49 (by decide) (by decide),
    key_classification.2.2.2.2 ['5'] 97 '1' (by decide) (by decide)⟩

/-! ## Helper lemmas about the preference store -/

theorem lookup_append_of_some {cfg : Config} (tail : Config) {k : String} {v : JVal}
    (h : cfg.lookup k = some v) : (cfg ++ tail).lookup k = some v := by
  induction cfg with
  | nil => simp at h
  | cons kv cfg ih =>
    obtain ⟨k2, v2⟩ := kv
    rw [List.lookup_cons] at h
    rw [List.cons_append, List.lookup_cons]
    cases hbeq : k == k2
    · simp only [hbeq] at h
      exact ih h
    · simpa only [hbeq] using h

theorem lookup_append_singleton_of_none {cfg : Config} {k : String} (v : JVal)
    (h : cfg.lookup k = none) : (cfg ++ [(k, v)]).lookup k = some v := by
  induction cfg with
  | nil => simp [List.lookup_cons]
  | cons kv cfg ih =>
    obtain ⟨k2, v2⟩ := kv
    rw [List.lookup_cons] at h
    rw [List.cons_append, List.lookup_cons]
    cases hbeq : k == k2
    · simp only [hbeq] at h
      exact ih h
    · rw [hbeq] at h
      simp at h

theorem lookup_append_singleton_ne {cfg : Config} {k k2 : String} (v : JVal)
    (h : k ≠ k2) : (cfg ++ [(k2, v)]).lookup k = cfg.lookup k := by
  induction cfg with
  | nil =>
    simp only [List.nil_append, List.lookup_cons, List.lookup_nil]
    rw [beq_eq_false_iff_ne.mpr h]
  | cons kv cfg ih =>
    obtain ⟨k3, v3⟩ := kv
    rw [List.cons_append, List.lookup_cons, List.lookup_cons]
    cases hbeq : k == k3
    · simp only [hbeq]
      exact ih
    · simp only [hbeq]

theorem ensure_key_lookup_self (cfg : Config) (k : String) (v : JVal) :
    (ensure_key cfg (k, v)).lookup k = some ((cfg.lookup k).getD v) := by
  unfold ensure_key
  cases h : cfg.lookup k with
  | some w => simp [h]
  | none => simp [h, lookup_append_singleton_of_none v h]

theorem ensure_key_lookup_ne (cfg : Config) {k : String} (kv : String × JVal)
    (h : k ≠ kv.1) : (ensure_key cfg kv).lookup k = cfg.lookup k := by
  unfold ensure_key
  obtain ⟨k2, v2⟩ := kv
  split
  · rfl
  · exact lookup_append_singleton_ne v2 h

theorem ensure_key_of_isSome {cfg : Config} {kv : String × JVal}
    (h : (cfg.lookup kv.1).isSome) : ensure_key cfg kv = cfg := by
  unfold ensure_key
  rw [if_pos h]

/-- Unfolding: the backfill loop on a parsed record is the four
`ensure_key` steps in the iteration order of `DEFAULT_CONFIG`. -/
theorem backfill_steps (obj : Config) :
    DEFAULT_CONFIG.foldl ensure_key obj =
      ensure_key (ensure_key (ensure_key (ensure_key obj
        ("overlay_color", .str "#ffff00"))
        ("overlay_x", .null))
        ("overlay_y", .null))
        ("overlay_locked", .bool false) :=
  rfl

theorem backfill_lookup_color (obj : Config) :
    (DEFAULT_CONFIG.foldl ensure_key obj).lookup "overlay_color"
      = some ((obj.lookup "overlay_color").getD (.str "#ffff00")) := by
  rw [backfill_steps]
  rw [ensure_key_lookup_ne _ _ (by decide), ensure_key_lookup_ne _ _ (by decide),
    ensure_key_lookup_ne _ _ (by decide), ensure_key_lookup_self]

theorem backfill_lookup_x (obj : Config) :
    (DEFAULT_CONFIG.foldl ensure_key obj).lookup "overlay_x"
      = some ((obj.lookup "overlay_x").getD .null) := by
  rw [backfill_steps]
  rw [ensure_key_lookup_ne _ _ (by decide), ensure_key_lookup_ne _ _ (by decide),
    ensure_key_lookup_self, ensure_key_lookup_ne _ _ (by decide)]

theorem backfill_lookup_y (obj : Config) :
    (DEFAULT_CONFIG.foldl ensure_key obj).lookup "overlay_y"
      = some ((obj.lookup "overlay_y").getD .null) := by
  rw [backfill_steps]
  rw [ensure_key_lookup_ne _ _ (by decide), ensure_key_lookup_self,
    ensure_key_lookup_ne _ _ (by decide), ensure_key_lookup_ne _ _ (by decide)]

theorem backfill_lookup_locked (obj : Config) :
    (DEFAULT_CONFIG.foldl ensure_key obj).lookup "overlay_locked"
      = some ((obj.lookup "overlay_locked").getD (.bool false)) := by
  rw [backfill_steps]
  rw [ensure_key_lookup_self, ensure_key_lookup_ne _ _ (by decide),
    ensure_key_lookup_ne _ _ (by decide), ensure_key_lookup_ne _ _ (by decide)]

theorem backfill_lookup_default (obj : Config) :
    ∀ kv ∈ DEFAULT_CONFIG,
      (DEFAULT_CONFIG.foldl ensure_key obj).lookup kv.1
        = some ((obj.lookup kv.1).getD kv.2) := by
  intro kv hkv
  simp only [DEFAULT_CONFIG, List.mem_cons, List.not_mem_nil, or_false] at hkv
  rcases hkv with rfl | rfl | rfl | rfl
  · exact backfill_lookup_color obj
  · exact backfill_lookup_x obj
  · exact backfill_lookup_y obj
  · exact backfill_lookup_locked obj

theorem default_has_keys :
    ∀ kv ∈ DEFAULT_CONFIG, (DEFAULT_CONFIG.lookup kv.1).isSome := by
  decide

theorem backfill_has_keys (obj : Config) :
    ∀ kv ∈ DEFAULT_CONFIG,
      ((DEFAULT_CONFIG.foldl ensure_key obj).lookup kv.1).isSome := by
  intro kv hkv
  rw [backfill_lookup_default obj kv hkv]
  rfl

theorem backfill_of_full {cfg : Config}
    (h : ∀ kv ∈ DEFAULT_CONFIG, (cfg.lookup kv.1).isSome) :
    DEFAULT_CONFIG.foldl ensure_key cfg = cfg := by
  rw [backfill_steps]
  rw [ensure_key_of_isSome (h _ (by decide))]
  rw [ensure_key_of_isSome (h _ (by decide))]
  rw [ensure_key_of_isSome (h _ (by decide))]
  rw [ensure_key_of_isSome (h _ (by decide))]

/-- Unfolding: `load_config` on a parsed JSON array returns it raw
exactly when every recognized key name is an element. -/
theorem load_config_arr (elems : List JVal) :
    load_config (.parsed (.arr elems)) =
      if ∀ kv ∈ DEFAULT_CONFIG, JVal.str kv.1 ∈ elems
      then .arr elems else .dict DEFAULT_CONFIG :=
  rfl

/-- Unfolding: `load_config` on a parsed JSON string returns it raw
exactly when every recognized key name is a substring. -/
theorem load_config_pystr (s : String) :
    load_config (.parsed (.pystr s)) =
      if ∀ kv ∈ DEFAULT_CONFIG, kv.1.toList <:+: s.toList
      then .pystr s else .dict DEFAULT_CONFIG :=
  rfl

theorem load_default_roundtrip :
    load_config (save_config (.dict DEFAULT_CONFIG)) = .dict DEFAULT_CONFIG := by
  show PyVal.dict (DEFAULT_CONFIG.foldl ensure_key DEFAULT_CONFIG)
    = .dict DEFAULT_CONFIG
  rw [backfill_of_full default_has_keys]

/-! ## Claim theorems: the preference store -/

/-- C5: `load_config` on a nonexistent preferences file, and on a file
whose open or parse raises (unreadable or unparseable), returns exactly
the default record `{overlay_color: "#ffff00", overlay_x: null,
overlay_y: null, overlay_locked: false}`; being a total function over
every file outcome, it never raises to the caller. -/
theorem load_config_failure_defaults :
    load_config .missing =
        .dict [("overlay_color", .str "#ffff00"), ("overlay_x", .null),
         ("overlay_y", .null), ("overlay_locked", .bool false)] ∧
      load_config .unreadable =
        .dict [("overlay_color", .str "#ffff00"), ("overlay_x", .null),
         ("overlay_y", .null), ("overlay_locked", .bool false)] :=
  ⟨rfl, rfl⟩

/-- C6: the claim fails on the code. On a preferences file parsing to the
JSON array `["overlay_color", "overlay_x", "overlay_y",
"overlay_locked"]`, every `key not in config` test at `main.py` line 38
is false (element membership), so no assignment runs, nothing raises,
and line 40 returns the raw array unchanged — not a record, no keys
backfilled, contradicting the claim (and spec sections 4.4 and 7, which
demand defaults for every non-record outcome). This theorem evaluates
the code at that failing input. -/
theorem load_config_nonrecord_raw :
    load_config (.parsed (.arr
        [.str "overlay_color", .str "overlay_x",
         .str "overlay_y", .str "overlay_locked"])) =
      .arr [.str "overlay_color", .str "overlay_x",
        .str "overlay_y", .str "overlay_locked"] := by
  decide

/-- C8: persistence round-trip. `save_config` models a successful write
(`json.dump` leaves the file parsing back to exactly the saved value),
so for every starting file state, saving the loaded value and loading
again returns the value of the first load: backfilled records are fully
keyed so the second backfill no-ops, and a raw non-record that survived
the membership tests survives them again unchanged. -/
theorem save_load_roundtrip (fs : FileState) :
    load_config (save_config (load_config fs)) = load_config fs := by
  cases fs with
  | missing => exact load_default_roundtrip
  | unreadable => exact load_default_roundtrip
  | parsed v =>
    cases v with
    | dict obj =>
      show PyVal.dict (DEFAULT_CONFIG.foldl ensure_key
          (DEFAULT_CONFIG.foldl ensure_key obj)) = _
      rw [backfill_of_full (backfill_has_keys obj)]
      rfl
    | arr elems =>
      by_cases h : ∀ kv ∈ DEFAULT_CONFIG, JVal.str kv.1 ∈ elems
      · simp only [load_config_arr, if_pos h, save_config]
      · simp only [load_config_arr, if_neg h]
        exact load_default_roundtrip
    | pystr s =>
      by_cases h : ∀ kv ∈ DEFAULT_CONFIG, kv.1.toList <:+: s.toList
      · simp only [load_config_pystr, if_pos h, save_config]
      · simp only [load_config_pystr, if_neg h]
        exact load_default_roundtrip
    | other w => exact load_default_roundtrip

/-! ## Helper lemmas about Python string operations and the overlay -/

theorem pyStrip_eq_nil {s : List Char} (h : pyStrip s = []) :
    ∀ c ∈ s, c.isWhitespace := by
  unfold pyStrip at h
  rw [List.reverse_eq_nil_iff, List.dropWhile_eq_nil_iff] at h
  intro c hc
  rw [← List.takeWhile_append_dropWhile (p := Char.isWhitespace) (l := s)] at hc
  rcases List.mem_append.mp hc with h1 | h2
  · exact List.mem_takeWhile_imp h1
  · exact h c (List.mem_reverse.mpr h2)

theorem digit_not_ws {c : Char} (h : c.isDigit = true) : c.isWhitespace = false := by
  cases hw : c.isWhitespace
  · rfl
  · exfalso
    simp only [Char.isWhitespace, Bool.or_eq_true, decide_eq_true_eq] at hw
    rcases hw with ((rfl | rfl) | rfl) | rfl <;> exact absurd h (by decide)

theorem digit_ne_O {c : Char} (h : c.isDigit = true) : ('O' == c) = false := by
  cases hb : 'O' == c
  · rfl
  · exfalso
    rw [beq_iff_eq] at hb
    rw [← hb] at h
    exact absurd h (by decide)

theorem spacedJoin_cons (d : Char) (rest : List Char) :
    ∃ t, spacedJoin (d :: rest) = d :: t := by
  cases rest with
  | nil => exact ⟨[], rfl⟩
  | cons e rest2 => exact ⟨' ' :: spacedJoin (e :: rest2), rfl⟩

theorem pyStrip_spacedJoin_ne_nil {d : Char} (rest : List Char)
    (hd : d.isDigit = true) : pyStrip (spacedJoin (d :: rest)) ≠ [] := by
  obtain ⟨t, ht⟩ := spacedJoin_cons d rest
  intro h
  have hmem : d ∈ spacedJoin (d :: rest) := by rw [ht]; exact List.mem_cons_self d t
  have := pyStrip_eq_nil h d hmem
  rw [digit_not_ws hd] at this
  exact Bool.false_ne_true this

theorem overlay_not_prefix_of_digit {d : Char} (t : List Char)
    (hd : d.isDigit = true) :
    List.isPrefixOf "Overlay".toList (d :: t) = false := by
  have h1 : "Overlay".toList = 'O' :: "verlay".toList := rfl
  rw [h1]
  simp [List.isPrefixOf, digit_ne_O hd]

theorem pySplitRaw_nil : pySplitRaw [] = [[]] := rfl

theorem pySplitRaw_cons (c : Char) (s : List Char) :
    pySplitRaw (c :: s) =
      if c.isWhitespace then [] :: pySplitRaw s
      else (c :: (pySplitRaw s).headD []) :: (pySplitRaw s).tail := rfl

theorem pySplitRaw_spacedJoin {buf : List Char}
    (hbuf : ∀ c ∈ buf, c.isDigit) (hne : buf ≠ []) :
    pySplitRaw (spacedJoin buf) = buf.map (fun c => [c]) := by
  induction buf with
  | nil => exact absurd rfl hne
  | cons d rest ih =>
    have hd : d.isDigit = true := hbuf d (List.mem_cons_self d rest)
    cases rest with
    | nil =>
      show pySplitRaw [d] = [[d]]
      rw [pySplitRaw_cons, if_neg (by rw [digit_not_ws hd]; exact Bool.false_ne_true)]
      rfl
    | cons e rest2 =>
      have ih2 := ih (fun c hc => hbuf c (List.mem_cons_of_mem d hc)) (by simp)
      have hstep : spacedJoin (d :: e :: rest2) = d :: ' ' :: spacedJoin (e :: rest2) := rfl
      rw [hstep, pySplitRaw_cons, pySplitRaw_cons, ih2]
      have hws : (' ').isWhitespace = true := by decide
      rw [if_pos hws, if_neg (by rw [digit_not_ws hd]; exact Bool.false_ne_true)]
      simp

theorem filter_singletons (l : List Char) :
    (l.map (fun c => [c])).filter (fun g => !g.isEmpty) = l.map (fun c => [c]) := by
  induction l with
  | nil => rfl
  | cons c l ih => simp [ih]

theorem pySplit_spacedJoin {buf : List Char} (hbuf : ∀ c ∈ buf, c.isDigit) :
    pySplit (spacedJoin buf) = buf.map (fun c => [c]) := by
  cases hb : buf with
  | nil => rfl
  | cons d rest =>
    unfold pySplit
    rw [← hb, pySplitRaw_spacedJoin hbuf (by rw [hb]; simp), filter_singletons]

theorem update_text_of_digits {buf : List Char} (locked : Bool)
    (hbuf : ∀ c ∈ buf, c.isDigit) (hlen : buf.length ≤ 7) (hne : buf ≠ []) :
    update_text locked (spacedJoin buf) = spacedJoin buf := by
  obtain ⟨d, rest, rfl⟩ : ∃ d rest, buf = d :: rest := by
    cases buf with
    | nil => exact absurd rfl hne
    | cons d rest => exact ⟨d, rest, rfl⟩
  unfold update_text
  rw [pySplit_spacedJoin hbuf]
  simp only [List.length_map]
  simp only [if_neg (show ¬((d :: rest).length > 7) from by omega)]
  have hni : (pyStrip (spacedJoin (d :: rest))).isEmpty = false :=
    List.isEmpty_eq_false.mpr
      (pyStrip_spacedJoin_ne_nil rest (hbuf d (List.mem_cons_self d rest)))
  rw [hni]
  rfl

theorem update_text_of_empty (locked : Bool) :
    update_text locked [] = if locked then [] else POSITION_HINT := by
  cases locked <;> rfl

theorem update_overlay_style_of_digits {buf : List Char} (locked : Bool)
    (color : List Char) (hbuf : ∀ c ∈ buf, c.isDigit) (hne : buf ≠ []) :
    update_overlay_style (spacedJoin buf) locked color =
      if locked then
        QStyle.mk "none".toList "transparent".toList color "36px".toList
      else
        QStyle.mk "2px dashed #ff4757".toList "rgba(255, 71, 87, 0.15)".toList
          color "36px".toList := by
  obtain ⟨d, rest, rfl⟩ : ∃ d rest, buf = d :: rest := by
    cases buf with
    | nil => exact absurd rfl hne
    | cons d rest => exact ⟨d, rest, rfl⟩
  have hd : d.isDigit = true := hbuf d (List.mem_cons_self d rest)
  have hni : (pyStrip (spacedJoin (d :: rest))).isEmpty = false :=
    List.isEmpty_eq_false.mpr (pyStrip_spacedJoin_ne_nil rest hd)
  obtain ⟨t, ht⟩ := spacedJoin_cons d rest
  have hpre : List.isPrefixOf "Overlay".toList (spacedJoin (d :: rest)) = false := by
    rw [ht]; exact overlay_not_prefix_of_digit t hd
  unfold update_overlay_style
  rw [hni, hpre]
  simp

theorem update_overlay_style_of_hint (locked : Bool) (color : List Char) :
    update_overlay_style POSITION_HINT locked color =
      if locked then
        QStyle.mk "none".toList "transparent".toList "transparent".toList "16px".toList
      else
        QStyle.mk "2px dashed #ff4757".toList "rgba(255, 71, 87, 0.15)".toList
          "#ff4757".toList "16px".toList := by
  cases locked <;> rfl

theorem update_overlay_style_of_empty (locked : Bool) (color : List Char) :
    update_overlay_style [] locked color =
      if locked then
        QStyle.mk "none".toList "transparent".toList "transparent".toList "16px".toList
      else
        QStyle.mk "2px dashed #ff4757".toList "rgba(255, 71, 87, 0.15)".toList
          "#ff4757".toList "16px".toList := by
  cases locked <;> rfl

/-! ## Claim theorem: the overlay visual mode -/

/-- C7: the overlay visual mode is a deterministic function of
`(has_digits, locked)`, matching the four-row table. With digits present
the label shows the space-joined digits — undecorated (no border,
transparent background, digit text in the overlay color) when locked,
decorated (dashed border, tinted background) when unlocked. With no
digits, a locked overlay is fully transparent (empty label, transparent
color and background, no border) while an unlocked one shows the static
positioning-hint label with the decorated border and tinted background. -/
theorem overlay_visual_mode (buf : List Char) (locked : Bool) (color : List Char)
    (hbuf : ∀ c ∈ buf, c.isDigit) (hlen : buf.length ≤ 7) :
    (buf ≠ [] →
      update_text locked (render_spaced buf) = render_spaced buf ∧
        update_overlay_style (update_text locked (render_spaced buf)) locked color =
          if locked then
            QStyle.mk "none".toList "transparent".toList color "36px".toList
          else
            QStyle.mk "2px dashed #ff4757".toList "rgba(255, 71, 87, 0.15)".toList
              color "36px".toList) ∧
      (buf = [] →
        update_text locked (render_spaced buf) =
            (if locked then [] else POSITION_HINT) ∧
          update_overlay_style (update_text locked (render_spaced buf)) locked color =
            if locked then
              QStyle.mk "none".toList "transparent".toList "transparent".toList
                "16px".toList
            else
              QStyle.mk "2px dashed #ff4757".toList "rgba(255, 71, 87, 0.15)".toList
                "#ff4757".toList "16px".toList) := by
  constructor
  · intro hne
    rw [render_spaced_eq_spacedJoin]
    rw [update_text_of_digits locked hbuf hlen hne]
    exact ⟨rfl, update_overlay_style_of_digits locked color hbuf hne⟩
  · intro hnil
    subst hnil
    rw [render_spaced_eq_spacedJoin]
    show update_text locked [] = _ ∧ update_overlay_style (update_text locked []) locked color = _
    rw [update_text_of_empty]
    refine ⟨rfl, ?_⟩
    cases locked
    · rw [if_neg Bool.false_ne_true]
      exact update_overlay_style_of_hint false color
    · rw [if_pos rfl]
      exact update_overlay_style_of_empty true color

/-- Witness for C7 at the concrete buffer `['4','2']` (locked and
unlocked) and at the empty buffer (locked and unlocked). -/
theorem overlay_visual_mode_witness :
    (update_overlay_style (update_text true (render_spaced ['4', '2'])) true
        "#ffff00".toList
      = QStyle.mk "none".toList "transparent".toList "#ffff00".toList "36px".toList) ∧
      (update_overlay_style (update_text false (render_spaced ['4', '2'])) false
          "#ffff00".toList
        = QStyle.mk "2px dashed #ff4757".toList "rgba(255, 71, 87, 0.15)".toList
            "#ffff00".toList "36px".toList) ∧
      (update_overlay_style (update_text true (render_spaced [])) true
          "#ffff00".toList
        = QStyle.mk "none".toList "transparent".toList "transparent".toList
            "16px".toList) ∧
      (update_text false (render_spaced []) = POSITION_HINT) := by
  have h1 := (overlay_visual_mode ['4', '2'] true "#ffff00".toList
    (by decide) (by decide)).1 (by decide)
  have h2 := (overlay_visual_mode ['4', '2'] false "#ffff00".toList
    (by decide) (by decide)).1 (by decide)
  have h3 := (overlay_visual_mode [] true "#ffff00".toList
    (by decide) (by decide)).2 rfl
  have h4 := (overlay_visual_mode [] false "#ffff00".toList
    (by decide) (by decide)).2 rfl
  refine ⟨?_, ?_, ?_, ?_⟩
  · simpa using h1.2
  · simpa using h2.2
  · simpa using h3.2
  · simpa using h4.1

end OracleCounter
